import Mathlib

set_option maxRecDepth 100000

/-!
Verification development for `rmd` (src/main.go), a Markdown-to-HTML
rendering pipeline.  The program is a single linear `main` function; its
observable behaviour is fully determined by the results of the external
calls it makes (opening and reading the input, creating the temporary
directory and file, parsing and executing the preamble template, the
Markdown conversion, launching the viewer, removing the temporary
directory).  We embed `main` shallowly: the result of every external call
is a field of an environment `Env`, and a run produces a state `St`
recording the chronological event trace, the ordered list of writes to the
selected sink, and the Go panicking status.

Go control flow is embedded faithfully: `defer` pushes a closure onto a
stack that is executed in LIFO order both on normal return and while
panicking; a deferred closure that calls `recover()` during panicking
receives the panic value and STOPS the panicking sequence (the surrounding
function then returns normally), and `recover()` outside panicking returns
nil; a panic raised inside a deferred closure resumes unwinding through
the remaining deferred closures.
-/

/-- Error kinds, one per `panic(...)` site of `main` (src/main.go).  The
names follow the specification's error vocabulary: `inputOpen` for the
input-file open failure (line 39), `inputRead` for the read failure
(line 46), `tempDir` for the temporary-directory creation failure
(line 62), `tempFile` for the temporary-file creation failure (line 73),
`templateParse` for the preamble template parse failure (line 109),
`preambleWrite` for the preamble execution/write failure (line 120),
`render` for the Markdown conversion failure (line 140), `launch` for the
viewer launch failure (line 88), `suffixWrite` for the suffix write
failure (line 133). -/
inductive ErrKind where
  | inputOpen
  | inputRead
  | tempDir
  | tempFile
  | templateParse
  | preambleWrite
  | render
  | launch
  | suffixWrite
  deriving DecidableEq

/-- Where the Markdown input is read from (src/main.go lines 35-43). -/
inductive Source where
  | stdin
  | file (p : String)
  deriving DecidableEq

/-- Observable events of a run, in chronological order.  `mkdirTemp` and
`createFile` are emitted only when the corresponding creation succeeded
(the directory/file came into existence); `removeDir` records that removal
of the directory was attempted; `writeSink` records one write of bytes to
the selected sink; `stderrLine` records one diagnostic line. -/
inductive Ev where
  | openInput (p : String)
  | readFrom (src : Source)
  | mkdirTemp (dir : String)
  | createFile (p : String)
  | writeSink (s : String)
  | convert
  | launchViewer (p : String)
  | sleepSec (n : Nat)
  | removeDir (dir : String)
  | stderrLine (msg : String)
  | closeFile
  deriving DecidableEq

/-- The three command-line flags of `main` (src/main.go lines 28-32):
`-i` (input path, default the sentinel), `-preview`, `-style`. -/
structure Args where
  inPath : String
  preview : Bool
  style : Bool
  deriving DecidableEq

/-- Results of the external calls `main` performs, fixed for one run.
`mdTxt` is the byte content delivered by a successful read and
`convWritten` the bytes the conversion engine writes to the sink (all of
them when `convOk`, the partial output when conversion fails). -/
structure Env where
  openOk : Bool
  readOk : Bool
  mdTxt : String
  mkdirOk : Bool
  tmpDir : String
  createOk : Bool
  parseOk : Bool
  execOk : Bool
  convWritten : String
  convOk : Bool
  suffixOk : Bool
  launchOk : Bool
  removeOk : Bool
  deriving DecidableEq

/-- Run state: chronological event trace, ordered list of sink writes,
the sink's identity (`none` = standard output, `some p` = the temporary
file `p`), and the Go panicking status (`some e` while a panic carrying
error kind `e` is active). -/
structure St where
  trace : List Ev := []
  sink : List String := []
  sinkFile : Option String := none
  panicking : Option ErrKind := none
  deriving DecidableEq

/-- Observable outcome of the process: a panic that is still active when
`main` finishes unwinding crashes the process with a non-zero exit status;
otherwise `main` returns and the process exits zero. -/
inductive Outcome where
  | ok
  | fatal (e : ErrKind)
  deriving DecidableEq

/-- The outcome determined by the final state. -/
def St.outcome (st : St) : Outcome :=
  match st.panicking with
  | none => .ok
  | some e => .fatal e

/-- Append one event to the trace. -/
def emit (e : Ev) (st : St) : St :=
  { st with trace := st.trace ++ [e] }

/-- Write a chunk of bytes to the selected sink (recorded both as the next
element of the sink-write list and as a trace event). -/
def writeSinkSt (s : String) (st : St) : St :=
  { st with sink := st.sink ++ [s], trace := st.trace ++ [Ev.writeSink s] }

/-- The fixed embedded stylesheet `markDownStyleGithubCSS` of
src/main.go (lines 145-1276): the GitHub Markdown light theme.  The source
embeds roughly 1100 lines of fixed CSS text; every claim verified here is
invariant under the exact bytes of this opaque fixed payload, so only the
literal's opening fragment is reproduced (with braces written as hex
escapes); this constant stands for the full fixed block. -/
def markDownStyleGithubCSS : String :=
  "\n/* light */\n.markdown-body \x7b\n  color-scheme: light;\n  color: #1f2328;\n  background-color: #ffffff;\n  font-size: 16px;\n  word-wrap: break-word;\n\x7d\n"

/-- The preamble template text before the CSS insertion point
(src/main.go lines 99-102): the template literal opens with
html, head and style tags, each on its own line, followed by the line
holding the CSS template action. -/
def preambleBeforeCss : String := "<html>\n<head>\n<style>\n"

/-- The preamble template text after the CSS insertion point
(src/main.go lines 103-107): closing style and head tags, the body tag
and the opening article container tag. -/
def preambleAfterCss : String :=
  "\n</style>\n</head>\n<body>\n<article class=\"markdown-body\">\n"

/-- The bytes produced by executing the preamble template with the fixed
CSS payload (src/main.go lines 111-121): the template action is replaced
by the CSS text, unescaped (`template.CSS` passes the payload through). -/
def preambleHtml : String :=
  preambleBeforeCss ++ markDownStyleGithubCSS ++ preambleAfterCss

/-- The closing boilerplate written by the deferred suffix writer
(src/main.go lines 128-131). -/
def suffixHtml : String := "\n</article>\n</body>\n</html>"

/-- The diagnostic line printed when the preview launcher observes an
active panic (src/main.go line 83). -/
def skipPreviewMsg : String := "Skip preview due to panic"

/-- The diagnostic line printed when removing the temporary directory
fails (src/main.go line 67). -/
def removeErrMsg (dir : String) : String :=
  "error removing temporary directory " ++ dir

/-- The deferred closures `main` can push, in source order of their
registration sites: the input-file close (line 41), the temporary
directory cleanup (lines 65-69), the temporary-file close (line 76), the
preview launcher (lines 80-93) and the style suffix writer
(lines 124-135). -/
inductive Deferred where
  | closeInput
  | cleanupTmpDir (dir : String)
  | closeTmpFile
  | previewLaunch (tmpOut : String)
  | writeSuffix
  deriving DecidableEq

/-- Execute one deferred closure on the current state, with Go `recover`
semantics: the preview launcher and the suffix writer both call
`recover()`, which consumes (and cancels) any active panic; each then
proceeds only when the recovered value was nil.  The cleanup closure
reports a removal failure to standard error without affecting the
panicking status; the close closures ignore their error. -/
def runDeferred (env : Env) (d : Deferred) (st : St) : St :=
  match d with
  | .closeInput => emit .closeFile st
  | .closeTmpFile => emit .closeFile st
  | .cleanupTmpDir dir =>
    let st := emit (.removeDir dir) st
    if env.removeOk then st else emit (.stderrLine (removeErrMsg dir)) st
  | .previewLaunch tmpOut =>
    let v := st.panicking
    let st := { st with panicking := none }
    match v with
    | some _ => emit (.stderrLine skipPreviewMsg) st
    | none =>
      let st := emit (.launchViewer tmpOut) st
      if env.launchOk then emit (.sleepSec 1) st
      else { st with panicking := some .launch }
  | .writeSuffix =>
    let v := st.panicking
    let st := { st with panicking := none }
    match v with
    | some _ => st
    | none =>
      if env.suffixOk then writeSinkSt suffixHtml st
      else { st with panicking := some .suffixWrite }

/-- Execute the deferred stack in LIFO order (head = most recently
pushed), as Go does both on normal return and while panicking. -/
def runDefers (env : Env) : List Deferred → St → St
  | [], st => st
  | d :: ds, st => runDefers env ds (runDeferred env d st)

/-- Stage 4 of `main` (src/main.go lines 138-141): convert the Markdown
text, writing the engine's output to the sink; panic with the render
error when conversion fails; then unwind the deferred stack. -/
def mainConvert (env : Env) (ds : List Deferred) (st : St) : St :=
  let st := emit .convert st
  let st := writeSinkSt env.convWritten st
  if env.convOk then runDefers env ds st
  else runDefers env ds { st with panicking := some .render }

/-- Stage 3 of `main` (src/main.go lines 97-136): when `-style` is set,
parse the preamble template (panicking on failure), execute it into the
sink (panicking on failure), and register the deferred suffix writer. -/
def mainStyle (env : Env) (args : Args) (ds : List Deferred) (st : St) : St :=
  if args.style then
    if env.parseOk then
      if env.execOk then
        mainConvert env (Deferred.writeSuffix :: ds) (writeSinkSt preambleHtml st)
      else runDefers env ds { st with panicking := some .preambleWrite }
    else runDefers env ds { st with panicking := some .templateParse }
  else mainConvert env ds st

/-- Stage 2 of `main` (src/main.go lines 56-94): the sink defaults to
standard output; when `-preview` is set, create a temporary directory
(panicking on failure), register its deferred cleanup, create `out.html`
inside it (panicking on failure), make that file the sink, register its
deferred close and the deferred preview launcher. -/
def mainPreview (env : Env) (args : Args) (ds : List Deferred) (st : St) : St :=
  if args.preview then
    if env.mkdirOk then
      let st := emit (.mkdirTemp env.tmpDir) st
      let ds := Deferred.cleanupTmpDir env.tmpDir :: ds
      let tmpOut := env.tmpDir ++ "/out.html"
      if env.createOk then
        let st := emit (.createFile tmpOut) st
        let st := { st with sinkFile := some tmpOut }
        mainStyle env args (Deferred.previewLaunch tmpOut :: Deferred.closeTmpFile :: ds) st
      else runDefers env ds { st with panicking := some .tempFile }
    else runDefers env ds { st with panicking := some .tempDir }
  else mainStyle env args ds st

/-- Stage 1b of `main` (src/main.go lines 44-47): read the whole input
into memory, panicking with the read error on failure. -/
def mainRead (env : Env) (args : Args) (ds : List Deferred) (st : St) : St :=
  if env.readOk then mainPreview env args ds st
  else runDefers env ds { st with panicking := some .inputRead }

/-- The embedded `main` (src/main.go lines 25-142).  Stage 1a
(lines 35-43): the input is standard input unless `-i` names a path other
than the empty string and the sentinel, in which case the named file is
opened (panicking with the open error on failure) and its deferred close
registered. -/
def mainRun (env : Env) (args : Args) : St :=
  let st : St := {}
  if args.inPath != "" && args.inPath != "-" then
    let st := emit (.openInput args.inPath) st
    if env.openOk then
      mainRead env args [Deferred.closeInput] (emit (.readFrom (.file args.inPath)) st)
    else runDefers env [] { st with panicking := some .inputOpen }
  else mainRead env args [] (emit (.readFrom .stdin) st)

/-- A fully successful environment used for sanity checks and witnesses. -/
def envAllOk : Env :=
  { openOk := true
    readOk := true
    mdTxt := "# Hi\n"
    mkdirOk := true
    tmpDir := "/tmp/rmd1"
    createOk := true
    parseOk := true
    execOk := true
    convWritten := "<h1>Hi</h1>\n"
    convOk := true
    suffixOk := true
    launchOk := true
    removeOk := true }

/-- Classifier for the events that the stages running after the sink
selection (the style wrapper, the conversion and the deferred-stack
unwinding) can append to the trace.  The input events, the directory
creation and the file creation are never among them. -/
def lateEv : Ev → Bool
  | .writeSink _ => true
  | .convert => true
  | .launchViewer _ => true
  | .sleepSec _ => true
  | .removeDir _ => true
  | .stderrLine _ => true
  | .closeFile => true
  | _ => false

/-- Three events occur in the given order somewhere in a trace. -/
def occursInOrder3 (a b c : Ev) (tr : List Ev) : Prop :=
  ∃ t1 t2 t3 t4, tr = t1 ++ a :: t2 ++ b :: t3 ++ c :: t4

/-- The bytes a run delivered to its sink: the concatenation of the sink
writes, as a character sequence. -/
def sinkBytes (st : St) : List Char :=
  (st.sink.map String.data).flatten

/-- Modelled from the spec: the preamble template is constructed by the
external `html/template` library (not part of this repository's sources)
from the fixed static literal of src/main.go lines 99-107; per the spec,
construction of the fixed, well-formed static template cannot fail, so
the parse result is success. -/
def staticTemplateParseOk : Bool := true

/-- Modelled from the spec: the Markdown→HTML conversion engine (goldmark
configured in src/main.go lines 49-54 with the GFM extension set and
hard-wrap rendering) is an external collaborator whose code is not part
of this repository's sources.  Splitting a character sequence at the
newline characters models how the engine sees the source lines of a
paragraph. -/
def splitOnNl : List Char → List (List Char)
  | [] => [[]]
  | c :: cs =>
    if c = '\n' then [] :: splitOnNl cs
    else
      match splitOnNl cs with
      | [] => [[c]]
      | l :: ls => (c :: l) :: ls

/-- Modelled from the spec: trailing hard-wrap spaces of a source line
are consumed by the line-break marker and do not appear in the output. -/
def rstripSpaces (l : List Char) : List Char :=
  (l.reverse.dropWhile (fun c => c = ' ')).reverse

/-- Modelled from the spec: a single trailing newline terminates the
paragraph and does not open a further line. -/
def chompNl (l : List Char) : List Char :=
  if l.getLast? = some '\n' then l.dropLast else l

/-- Modelled from the spec: with hard-wrap rendering enabled, the engine
joins the source lines of a paragraph with the hard line-break element
(rather than collapsing the line boundary into a space). -/
def brJoin : List (List Char) → List Char
  | [] => []
  | [l] => l
  | l :: ls => l ++ '<' :: 'b' :: 'r' :: '>' :: '\n' :: brJoin ls

/-- Modelled from the spec: the engine's output for a single-paragraph
Markdown input — the paragraph element wrapping the source lines joined
by hard line-break elements, each line stripped of its trailing
hard-wrap spaces. -/
def mdConvert (s : String) : String :=
  ⟨'<' :: 'p' :: '>' ::
    (brJoin ((splitOnNl (chompNl s.data)).map rstripSpaces)
      ++ '<' :: '/' :: 'p' :: '>' :: '\n' :: [])⟩

example : mdConvert ("a  \nb\n") = "<p>a<br>\nb</p>\n" := by decide

example : mdConvert ("a\nb\n") = "<p>a<br>\nb</p>\n" := by decide

example : (mainRun envAllOk ⟨"-", false, false⟩).sink = ["<h1>Hi</h1>\n"] := by decide

example : (mainRun envAllOk ⟨"-", false, false⟩).outcome = .ok := by decide

example :
    (mainRun envAllOk ⟨"-", false, true⟩).sink
      = [preambleHtml, "<h1>Hi</h1>\n", suffixHtml] := by decide

example :
    (mainRun envAllOk ⟨"-", true, false⟩).trace
      = [.readFrom .stdin, .mkdirTemp "/tmp/rmd1",
         .createFile "/tmp/rmd1/out.html", .convert,
         .writeSink "<h1>Hi</h1>\n", .launchViewer "/tmp/rmd1/out.html",
         .sleepSec 1, .closeFile, .removeDir "/tmp/rmd1"] := by decide

example :
    (mainRun { envAllOk with convOk := false } ⟨"-", false, false⟩).outcome
      = .fatal .render := by decide

example :
    (mainRun { envAllOk with convOk := false } ⟨"-", false, true⟩).outcome
      = .ok := by decide

example :
    (mainRun { envAllOk with convOk := false } ⟨"-", true, false⟩).outcome
      = .ok := by decide

example :
    Ev.stderrLine skipPreviewMsg
      ∈ (mainRun { envAllOk with convOk := false } ⟨"-", true, false⟩).trace := by decide

example :
    (mainRun { envAllOk with launchOk := false } ⟨"-", true, false⟩).outcome
      = .fatal .launch := by decide
/-- C1: for every input on which the run succeeds, the bytes written to
the sink with the style flag set are exactly the fixed preamble bytes,
followed by the bytes written to the sink for the same input without the
style flag, followed by the fixed suffix bytes — so stripping the fixed
preamble from the front and the fixed suffix from the end of the styled
output yields output byte-identical to the unstyled one. -/
theorem styled_output_wraps_unstyled_output (env : Env)
    (hr : env.readOk = true) (hp : env.parseOk = true) (he : env.execOk = true)
    (hc : env.convOk = true) (hs : env.suffixOk = true) :
    sinkBytes (mainRun env ⟨"-", false, true⟩)
      = preambleHtml.data ++ sinkBytes (mainRun env ⟨"-", false, false⟩)
          ++ suffixHtml.data := by
  simp [mainRun, mainRead, mainPreview, mainStyle, mainConvert, runDefers,
        runDeferred, emit, writeSinkSt, sinkBytes, hr, hp, he, hc, hs]

/-- C1 witness: the theorem applied at the all-successful environment. -/
theorem styled_output_wraps_unstyled_output_witness :
    envAllOk.readOk = true ∧ envAllOk.parseOk = true ∧ envAllOk.execOk = true
      ∧ envAllOk.convOk = true ∧ envAllOk.suffixOk = true
      ∧ sinkBytes (mainRun envAllOk ⟨"-", false, true⟩)
          = preambleHtml.data ++ sinkBytes (mainRun envAllOk ⟨"-", false, false⟩)
              ++ suffixHtml.data :=
  ⟨rfl, rfl, rfl, rfl, rfl,
    styled_output_wraps_unstyled_output envAllOk rfl rfl rfl rfl rfl⟩

/-- C2: every successful run with the style flag set delivers exactly
three parts to its sink, in order: the preamble (the html, head and style
opening containing the fixed embedded CSS block and the opening body and
article tags), then the converted Markdown body, then the closing
boilerplate matching the opening tags. -/
theorem style_run_sink_three_parts (env : Env) (p : String) (b : Bool)
    (ho : env.openOk = true) (hr : env.readOk = true) (hm : env.mkdirOk = true)
    (hcr : env.createOk = true) (hp : env.parseOk = true) (he : env.execOk = true)
    (hc : env.convOk = true) (hs : env.suffixOk = true) (hl : env.launchOk = true) :
    (mainRun env ⟨p, b, true⟩).sink = [preambleHtml, env.convWritten, suffixHtml]
      ∧ preambleHtml
          = "<html>\n<head>\n<style>\n" ++ markDownStyleGithubCSS
              ++ "\n</style>\n</head>\n<body>\n<article class=\"markdown-body\">\n"
      ∧ suffixHtml = "\n</article>\n</body>\n</html>" := by
  refine ⟨?_, rfl, rfl⟩
  cases hpc : (p != "" && p != "-") <;> cases b <;> cases hrm : env.removeOk <;>
    simp [mainRun, mainRead, mainPreview, mainStyle, mainConvert, runDefers,
          runDeferred, emit, writeSinkSt, hpc, ho, hr, hm, hcr, hp, he, hc, hs, hl, hrm]

/-- C2 witness: the theorem applied at the all-successful environment, in
preview mode reading from a named file. -/
theorem style_run_sink_three_parts_witness :
    envAllOk.openOk = true ∧ envAllOk.readOk = true ∧ envAllOk.mkdirOk = true
      ∧ envAllOk.createOk = true ∧ envAllOk.parseOk = true
      ∧ envAllOk.execOk = true ∧ envAllOk.convOk = true
      ∧ envAllOk.suffixOk = true ∧ envAllOk.launchOk = true
      ∧ (mainRun envAllOk ⟨"doc.md", true, true⟩).sink
          = [preambleHtml, envAllOk.convWritten, suffixHtml] :=
  ⟨rfl, rfl, rfl, rfl, rfl, rfl, rfl, rfl, rfl,
    (style_run_sink_three_parts envAllOk ("doc.md") true
      rfl rfl rfl rfl rfl rfl rfl rfl rfl).1⟩

/-- Running one deferred closure appends (only) late events to the trace. -/
theorem runDeferred_trace_append (env : Env) (d : Deferred) (st : St) :
    ∃ l, (runDeferred env d st).trace = st.trace ++ l
      ∧ ∀ e ∈ l, lateEv e = true := by
  cases d with
  | closeInput => exact ⟨[.closeFile], rfl, by simp [lateEv]⟩
  | closeTmpFile => exact ⟨[.closeFile], rfl, by simp [lateEv]⟩
  | cleanupTmpDir dir =>
    cases hrm : env.removeOk
    · exact ⟨[.removeDir dir, .stderrLine (removeErrMsg dir)],
        by simp [runDeferred, emit, hrm], by simp [lateEv]⟩
    · exact ⟨[.removeDir dir], by simp [runDeferred, emit, hrm], by simp [lateEv]⟩
  | previewLaunch p =>
    cases hp : st.panicking
    · cases hl : env.launchOk
      · exact ⟨[.launchViewer p], by simp [runDeferred, emit, hp, hl], by simp [lateEv]⟩
      · exact ⟨[.launchViewer p, .sleepSec 1],
          by simp [runDeferred, emit, hp, hl], by simp [lateEv]⟩
    · exact ⟨[.stderrLine skipPreviewMsg], by simp [runDeferred, emit, hp], by simp [lateEv]⟩
  | writeSuffix =>
    cases hp : st.panicking
    · cases hs : env.suffixOk
      · exact ⟨[], by simp [runDeferred, hp, hs], by simp⟩
      · exact ⟨[.writeSink suffixHtml],
          by simp [runDeferred, writeSinkSt, hp, hs], by simp [lateEv]⟩
    · exact ⟨[], by simp [runDeferred, hp], by simp⟩

/-- Running one deferred closure never discards trace events. -/
theorem trace_runDeferred_mono (env : Env) (d : Deferred) (st : St) (e : Ev)
    (h : e ∈ st.trace) : e ∈ (runDeferred env d st).trace := by
  obtain ⟨l, heq, _⟩ := runDeferred_trace_append env d st
  rw [heq]
  exact List.mem_append_left _ h

/-- Unwinding the deferred stack never discards trace events. -/
theorem trace_runDefers_mono (env : Env) (ds : List Deferred) :
    ∀ st e, e ∈ st.trace → e ∈ (runDefers env ds st).trace := by
  induction ds with
  | nil => intro st e h; simpa [runDefers] using h
  | cons d ds ih =>
    intro st e h
    exact ih _ _ (trace_runDeferred_mono env d st e h)

/-- Any event a deferred closure adds to the trace is a late event. -/
theorem trace_runDeferred_late (env : Env) (d : Deferred) (st : St) (e : Ev)
    (h : e ∈ (runDeferred env d st).trace) : e ∈ st.trace ∨ lateEv e = true := by
  obtain ⟨l, heq, hall⟩ := runDeferred_trace_append env d st
  rw [heq] at h
  rcases List.mem_append.mp h with h' | h'
  · exact Or.inl h'
  · exact Or.inr (hall e h')

/-- Any event the deferred-stack unwinding adds is a late event. -/
theorem trace_runDefers_late (env : Env) (ds : List Deferred) :
    ∀ st e, e ∈ (runDefers env ds st).trace → e ∈ st.trace ∨ lateEv e = true := by
  induction ds with
  | nil => intro st e h; simpa [runDefers] using Or.inl h
  | cons d ds ih =>
    intro st e h
    rcases ih _ _ h with h' | h'
    · exact trace_runDeferred_late env d st e h'
    · exact Or.inr h'

/-- The conversion stage never discards trace events. -/
theorem trace_mainConvert_mono (env : Env) (ds : List Deferred) (st : St) (e : Ev)
    (h : e ∈ st.trace) : e ∈ (mainConvert env ds st).trace := by
  have h' : e ∈ (writeSinkSt env.convWritten (emit .convert st)).trace := by
    simp [emit, writeSinkSt]; tauto
  unfold mainConvert
  split
  · exact trace_runDefers_mono env ds _ e h'
  · exact trace_runDefers_mono env ds _ e h'

/-- Any event the conversion stage adds is a late event. -/
theorem trace_mainConvert_late (env : Env) (ds : List Deferred) (st : St) (e : Ev)
    (h : e ∈ (mainConvert env ds st).trace) : e ∈ st.trace ∨ lateEv e = true := by
  unfold mainConvert at h
  split at h <;>
  · rcases trace_runDefers_late env ds _ e h with h' | h'
    · simp [writeSinkSt, emit] at h'
      rcases h' with h' | h' | h' <;> simp_all [lateEv]
    · exact Or.inr h'

/-- The style stage never discards trace events. -/
theorem trace_mainStyle_mono (env : Env) (args : Args) (ds : List Deferred)
    (st : St) (e : Ev) (h : e ∈ st.trace) : e ∈ (mainStyle env args ds st).trace := by
  unfold mainStyle
  split
  · split
    · split
      · refine trace_mainConvert_mono env _ _ e ?_
        simp [writeSinkSt]; tauto
      · exact trace_runDefers_mono env ds _ e h
    · exact trace_runDefers_mono env ds _ e h
  · exact trace_mainConvert_mono env ds st e h

/-- Any event the style stage adds is a late event. -/
theorem trace_mainStyle_late (env : Env) (args : Args) (ds : List Deferred)
    (st : St) (e : Ev) (h : e ∈ (mainStyle env args ds st).trace) :
    e ∈ st.trace ∨ lateEv e = true := by
  unfold mainStyle at h
  split at h
  · split at h
    · split at h
      · rcases trace_mainConvert_late env _ _ e h with h' | h'
        · simp [writeSinkSt] at h'
          rcases h' with h' | h' <;> simp_all [lateEv]
        · exact Or.inr h'
      · exact trace_runDefers_late env ds
          { st with panicking := some ErrKind.preambleWrite } e h
    · exact trace_runDefers_late env ds
        { st with panicking := some ErrKind.templateParse } e h
  · exact trace_mainConvert_late env ds st e h

/-- A cleanup closure on the deferred stack guarantees that removal of
its directory is attempted during unwinding. -/
theorem removeDir_of_cleanup_runDefers (env : Env) (dir : String) (ds : List Deferred) :
    ∀ st, Deferred.cleanupTmpDir dir ∈ ds →
      Ev.removeDir dir ∈ (runDefers env ds st).trace := by
  induction ds with
  | nil => intro st h; simp at h
  | cons d ds ih =>
    intro st h
    rcases List.mem_cons.mp h with h | h
    · subst h
      refine trace_runDefers_mono env ds _ _ ?_
      cases hrm : env.removeOk <;> simp [runDeferred, emit, hrm]
    · exact ih _ h

/-- A cleanup closure on the deferred stack survives the conversion stage:
removal of its directory is attempted on both conversion outcomes. -/
theorem removeDir_of_cleanup_mainConvert (env : Env) (dir : String)
    (ds : List Deferred) (st : St) (h : Deferred.cleanupTmpDir dir ∈ ds) :
    Ev.removeDir dir ∈ (mainConvert env ds st).trace := by
  unfold mainConvert
  split <;> exact removeDir_of_cleanup_runDefers env dir ds _ h

/-- A cleanup closure on the deferred stack survives the style stage:
removal of its directory is attempted on every path through it. -/
theorem removeDir_of_cleanup_mainStyle (env : Env) (args : Args) (dir : String)
    (ds : List Deferred) (st : St) (h : Deferred.cleanupTmpDir dir ∈ ds) :
    Ev.removeDir dir ∈ (mainStyle env args ds st).trace := by
  unfold mainStyle
  split
  · split
    · split
      · exact removeDir_of_cleanup_mainConvert env dir _ _ (List.mem_cons_of_mem _ h)
      · exact removeDir_of_cleanup_runDefers env dir ds _ h
    · exact removeDir_of_cleanup_runDefers env dir ds _ h
  · exact removeDir_of_cleanup_mainConvert env dir ds st h

/-- The sink-selection stage never discards trace events. -/
theorem trace_mainPreview_mono (env : Env) (args : Args) (ds : List Deferred)
    (st : St) (e : Ev) (h : e ∈ st.trace) : e ∈ (mainPreview env args ds st).trace := by
  unfold mainPreview
  split
  · split
    · split
      · refine trace_mainStyle_mono env args _ _ e ?_
        simp [emit]; tauto
      · refine trace_runDefers_mono env _ _ e ?_
        simp [emit]; tauto
    · exact trace_runDefers_mono env ds _ e h
  · exact trace_mainStyle_mono env args ds st e h

/-- Any event the sink-selection stage adds is a late event, the
directory-creation event or the file-creation event. -/
theorem trace_mainPreview_late (env : Env) (args : Args) (ds : List Deferred)
    (st : St) (e : Ev) (h : e ∈ (mainPreview env args ds st).trace) :
    e ∈ st.trace ∨ lateEv e = true ∨ e = .mkdirTemp env.tmpDir
      ∨ e = .createFile (env.tmpDir ++ "/out.html") := by
  unfold mainPreview at h
  split at h
  · split at h
    · split at h
      · rcases trace_mainStyle_late env args _ _ e h with h' | h'
        · simp [emit] at h'
          rcases h' with h' | h' | h' <;> simp_all
        · exact Or.inr (Or.inl h')
      · rcases trace_runDefers_late env _ _ e h with h' | h'
        · simp [emit] at h'
          rcases h' with h' | h' <;> simp_all
        · exact Or.inr (Or.inl h')
    · rcases trace_runDefers_late env ds _ e h with h' | h'
      · exact Or.inl h'
      · exact Or.inr (Or.inl h')
  · rcases trace_mainStyle_late env args ds st e h with h' | h'
    · exact Or.inl h'
    · exact Or.inr (Or.inl h')

/-- The read stage never discards trace events. -/
theorem trace_mainRead_mono (env : Env) (args : Args) (ds : List Deferred)
    (st : St) (e : Ev) (h : e ∈ st.trace) : e ∈ (mainRead env args ds st).trace := by
  unfold mainRead
  split
  · exact trace_mainPreview_mono env args ds st e h
  · exact trace_runDefers_mono env ds _ e h

/-- Any event the read stage adds is a late event, the directory-creation
event or the file-creation event. -/
theorem trace_mainRead_late (env : Env) (args : Args) (ds : List Deferred)
    (st : St) (e : Ev) (h : e ∈ (mainRead env args ds st).trace) :
    e ∈ st.trace ∨ lateEv e = true ∨ e = .mkdirTemp env.tmpDir
      ∨ e = .createFile (env.tmpDir ++ "/out.html") := by
  unfold mainRead at h
  split at h
  · exact trace_mainPreview_late env args ds st e h
  · rcases trace_runDefers_late env ds _ e h with h' | h'
    · exact Or.inl h'
    · exact Or.inr (Or.inl h')

/-- Deferred closures never change the sink's identity. -/
theorem sinkFile_runDeferred (env : Env) (d : Deferred) (st : St) :
    (runDeferred env d st).sinkFile = st.sinkFile := by
  cases d <;> cases hp : st.panicking <;> cases hrm : env.removeOk <;>
    cases hl : env.launchOk <;> cases hs : env.suffixOk <;>
    simp [runDeferred, emit, writeSinkSt, hp, hrm, hl, hs]

/-- Unwinding the deferred stack never changes the sink's identity. -/
theorem sinkFile_runDefers (env : Env) (ds : List Deferred) :
    ∀ st, (runDefers env ds st).sinkFile = st.sinkFile := by
  induction ds with
  | nil => intro st; simp [runDefers]
  | cons d ds ih =>
    intro st
    rw [runDefers, ih, sinkFile_runDeferred]

/-- The conversion stage never changes the sink's identity. -/
theorem sinkFile_mainConvert (env : Env) (ds : List Deferred) (st : St) :
    (mainConvert env ds st).sinkFile = st.sinkFile := by
  unfold mainConvert
  split <;> simp [sinkFile_runDefers, emit, writeSinkSt]

/-- The style stage never changes the sink's identity. -/
theorem sinkFile_mainStyle (env : Env) (args : Args) (ds : List Deferred) (st : St) :
    (mainStyle env args ds st).sinkFile = st.sinkFile := by
  unfold mainStyle
  split
  · split
    · split
      · simp [sinkFile_mainConvert, writeSinkSt]
      · simp [sinkFile_runDefers]
    · simp [sinkFile_runDefers]
  · simp [sinkFile_mainConvert]

/-- C4: when the `-i` argument is the empty string or the sentinel, the
input is read from standard input and no file open is attempted; when it
names a file that cannot be opened, the run fails with the input-open
error and aborts before any conversion; and when reading the input stream
fails, the run fails with the input-read error and aborts before any
conversion. -/
theorem input_resolution_and_errors :
    (∀ env args, (args.inPath = "" ∨ args.inPath = "-") →
        Ev.readFrom .stdin ∈ (mainRun env args).trace
          ∧ ∀ q, Ev.openInput q ∉ (mainRun env args).trace)
      ∧ (∀ env args, args.inPath ≠ "" → args.inPath ≠ "-" → env.openOk = false →
          (mainRun env args).outcome = .fatal .inputOpen
            ∧ Ev.convert ∉ (mainRun env args).trace)
      ∧ (∀ env args, env.openOk = true → env.readOk = false →
          (mainRun env args).outcome = .fatal .inputRead
            ∧ Ev.convert ∉ (mainRun env args).trace) := by
  refine ⟨?_, ?_, ?_⟩
  · intro env args h
    have hpc : (args.inPath != "" && args.inPath != "-") = false := by
      rcases h with h | h <;> simp [h]
    have hrun : mainRun env args = mainRead env args [] (emit (.readFrom .stdin) {}) := by
      simp [mainRun, hpc]
    rw [hrun]
    constructor
    · refine trace_mainRead_mono env args [] _ _ ?_
      simp [emit]
    · intro q hq
      rcases trace_mainRead_late env args [] _ _ hq with h' | h' | h' | h' <;>
        simp_all [emit, lateEv]
  · intro env args h1 h2 ho
    have hpc : (args.inPath != "" && args.inPath != "-") = true := by simp [h1, h2]
    constructor <;>
      simp [mainRun, runDefers, emit, St.outcome, hpc, ho]
  · intro env args ho hr
    cases hpc : (args.inPath != "" && args.inPath != "-") <;>
      constructor <;>
        simp [mainRun, mainRead, runDefers, runDeferred, emit, St.outcome, hpc, ho, hr]

/-- C4 witness: the three conjuncts applied at concrete environments: a
default run reading standard input, a run whose named input file cannot
be opened, and a run whose input read fails. -/
theorem input_resolution_and_errors_witness :
    Ev.readFrom .stdin ∈ (mainRun envAllOk ⟨"-", false, false⟩).trace
      ∧ (mainRun { envAllOk with openOk := false } ⟨"doc.md", false, false⟩).outcome
          = .fatal .inputOpen
      ∧ (mainRun { envAllOk with readOk := false } ⟨"-", false, false⟩).outcome
          = .fatal .inputRead :=
  ⟨(input_resolution_and_errors.1 envAllOk ⟨"-", false, false⟩ (Or.inr rfl)).1,
    (input_resolution_and_errors.2.1 { envAllOk with openOk := false }
      ⟨"doc.md", false, false⟩ (by decide) (by decide) rfl).1,
    (input_resolution_and_errors.2.2 { envAllOk with readOk := false }
      ⟨"-", false, false⟩ rfl rfl).1⟩

/-- A preview run whose input and temporary-directory setup succeed
reaches the style stage with the temporary file as sink, the cleanup and
launcher closures on the deferred stack, and the creation events (and no
other creation events) on the trace. -/
theorem mainRun_preview_reaches_style (env : Env) (args : Args)
    (hpv : args.preview = true) (ho : env.openOk = true) (hr : env.readOk = true)
    (hmk : env.mkdirOk = true) (hcr : env.createOk = true) :
    ∃ ds st,
      mainRun env args = mainStyle env args ds st
        ∧ Deferred.cleanupTmpDir env.tmpDir ∈ ds
        ∧ Deferred.previewLaunch (env.tmpDir ++ "/out.html") ∈ ds
        ∧ st.sinkFile = some (env.tmpDir ++ "/out.html")
        ∧ st.panicking = none
        ∧ (∀ q, Ev.createFile q ∈ st.trace → q = env.tmpDir ++ "/out.html")
        ∧ Ev.mkdirTemp env.tmpDir ∈ st.trace := by
  cases hpc : (args.inPath != "" && args.inPath != "-")
  · refine ⟨[Deferred.previewLaunch (env.tmpDir ++ "/out.html"), Deferred.closeTmpFile,
        Deferred.cleanupTmpDir env.tmpDir],
      { trace := [.readFrom .stdin, .mkdirTemp env.tmpDir,
                  .createFile (env.tmpDir ++ "/out.html")],
        sink := [], sinkFile := some (env.tmpDir ++ "/out.html"), panicking := none },
      ?_, by simp, by simp, rfl, rfl, ?_, by simp⟩
    · simp [mainRun, mainRead, mainPreview, emit, hpc, hr, hpv, hmk, hcr]
    · intro q hq
      simpa using hq
  · refine ⟨[Deferred.previewLaunch (env.tmpDir ++ "/out.html"), Deferred.closeTmpFile,
        Deferred.cleanupTmpDir env.tmpDir, Deferred.closeInput],
      { trace := [.openInput args.inPath, .readFrom (.file args.inPath),
                  .mkdirTemp env.tmpDir, .createFile (env.tmpDir ++ "/out.html")],
        sink := [], sinkFile := some (env.tmpDir ++ "/out.html"), panicking := none },
      ?_, by simp, by simp, rfl, rfl, ?_, by simp⟩
    · simp [mainRun, mainRead, mainPreview, emit, hpc, ho, hr, hpv, hmk, hcr]
    · intro q hq
      simpa using hq

/-- C5: in preview mode, a failure to create the temporary directory
aborts the run with the directory error before any conversion, with no
directory ever created; a failure to create the temporary file aborts the
run with the file error before any conversion, and removal of the created
directory is attempted (so with removal succeeding no leftover remains);
and on success the sink is exactly the file `out.html` inside the created
directory, the only file created. -/
theorem preview_temp_dir_lifecycle (env : Env) (args : Args)
    (hpv : args.preview = true) (ho : env.openOk = true) (hr : env.readOk = true) :
    (env.mkdirOk = false →
        (mainRun env args).outcome = .fatal .tempDir
          ∧ Ev.convert ∉ (mainRun env args).trace
          ∧ ∀ d, Ev.mkdirTemp d ∉ (mainRun env args).trace)
      ∧ (env.mkdirOk = true → env.createOk = false →
          (mainRun env args).outcome = .fatal .tempFile
            ∧ Ev.convert ∉ (mainRun env args).trace
            ∧ Ev.removeDir env.tmpDir ∈ (mainRun env args).trace)
      ∧ (env.mkdirOk = true → env.createOk = true →
          (mainRun env args).sinkFile = some (env.tmpDir ++ "/out.html")
            ∧ ∀ q, Ev.createFile q ∈ (mainRun env args).trace →
                q = env.tmpDir ++ "/out.html") := by
  refine ⟨?_, ?_, ?_⟩
  · intro hmk
    refine ⟨?_, ?_, ?_⟩ <;>
      cases hpc : (args.inPath != "" && args.inPath != "-") <;>
        simp [mainRun, mainRead, mainPreview, runDefers, runDeferred, emit,
              St.outcome, hpc, ho, hr, hpv, hmk]
  · intro hmk hcr
    refine ⟨?_, ?_, ?_⟩ <;>
      cases hpc : (args.inPath != "" && args.inPath != "-") <;>
        cases hrm : env.removeOk <;>
          simp [mainRun, mainRead, mainPreview, runDefers, runDeferred, emit,
                St.outcome, hpc, ho, hr, hpv, hmk, hcr, hrm]
  · intro hmk hcr
    obtain ⟨ds, st, hrun, -, -, hsf, -, hcf, -⟩ :=
      mainRun_preview_reaches_style env args hpv ho hr hmk hcr
    rw [hrun]
    constructor
    · rw [sinkFile_mainStyle, hsf]
    · intro q hq
      rcases trace_mainStyle_late env args ds st _ hq with h' | h'
      · exact hcf q h'
      · simp [lateEv] at h'

/-- C5 witness: the three conjuncts applied at concrete environments: a
preview run whose directory creation fails, one whose file creation
fails, and a fully successful one. -/
theorem preview_temp_dir_lifecycle_witness :
    (mainRun { envAllOk with mkdirOk := false } ⟨"-", true, false⟩).outcome
        = .fatal .tempDir
      ∧ (mainRun { envAllOk with createOk := false } ⟨"-", true, false⟩).outcome
          = .fatal .tempFile
      ∧ Ev.removeDir "/tmp/rmd1"
          ∈ (mainRun { envAllOk with createOk := false } ⟨"-", true, false⟩).trace
      ∧ (mainRun envAllOk ⟨"-", true, false⟩).sinkFile = some "/tmp/rmd1/out.html" :=
  ⟨((preview_temp_dir_lifecycle { envAllOk with mkdirOk := false } ⟨"-", true, false⟩
      rfl rfl rfl).1 rfl).1,
    ((preview_temp_dir_lifecycle { envAllOk with createOk := false } ⟨"-", true, false⟩
      rfl rfl rfl).2.1 rfl rfl).1,
    ((preview_temp_dir_lifecycle { envAllOk with createOk := false } ⟨"-", true, false⟩
      rfl rfl rfl).2.1 rfl rfl).2.2,
    ((preview_temp_dir_lifecycle envAllOk ⟨"-", true, false⟩ rfl rfl rfl).2.2 rfl rfl).1⟩

/-- Core of the cleanup guarantee: if the state entering the
sink-selection stage has no directory-creation event, then any
directory-creation event in the final trace is matched there by a removal
attempt for the same directory. -/
theorem mkdir_implies_remove_mainPreview (env : Env) (args : Args)
    (ds : List Deferred) (st : St) (d : String)
    (hnomk : Ev.mkdirTemp d ∉ st.trace)
    (h : Ev.mkdirTemp d ∈ (mainPreview env args ds st).trace) :
    Ev.removeDir d ∈ (mainPreview env args ds st).trace := by
  unfold mainPreview at h ⊢
  split at h
  · split at h
    · split at h
      · have hd : d = env.tmpDir := by
          rcases trace_mainStyle_late env args _ _ _ h with h' | h'
          · simp [emit] at h'
            tauto
          · simp [lateEv] at h'
        subst hd
        simp only [if_pos, if_neg]
        rw [if_pos (by assumption), if_pos (by assumption), if_pos (by assumption)]
        exact removeDir_of_cleanup_mainStyle env args env.tmpDir _ _ (by simp)
      · have hd : d = env.tmpDir := by
          rcases trace_runDefers_late env _ _ _ h with h' | h'
          · simp [emit] at h'
            tauto
          · simp [lateEv] at h'
        subst hd
        rw [if_pos (by assumption), if_pos (by assumption), if_neg (by assumption)]
        exact removeDir_of_cleanup_runDefers env env.tmpDir _ _ (by simp)
    · exfalso
      rcases trace_runDefers_late env ds _ _ h with h' | h'
      · exact hnomk h'
      · simp [lateEv] at h'
  · exfalso
    rcases trace_mainStyle_late env args ds st _ h with h' | h'
    · exact hnomk h'
    · simp [lateEv] at h'

/-- Lifting of the cleanup guarantee over the read stage. -/
theorem mkdir_implies_remove_mainRead (env : Env) (args : Args)
    (ds : List Deferred) (st : St) (d : String)
    (hnomk : Ev.mkdirTemp d ∉ st.trace)
    (h : Ev.mkdirTemp d ∈ (mainRead env args ds st).trace) :
    Ev.removeDir d ∈ (mainRead env args ds st).trace := by
  unfold mainRead at h ⊢
  split at h
  · rw [if_pos (by assumption)]
    exact mkdir_implies_remove_mainPreview env args ds st d hnomk h
  · exfalso
    rcases trace_runDefers_late env ds _ _ h with h' | h'
    · exact hnomk h'
    · simp [lateEv] at h'

/-- C7: whenever the temporary directory came into existence during a
run, removal of that directory is attempted before the run ends, on every
exit path (normal completion, conversion failure, temporary-file-creation
failure and launch failure alike). -/
theorem temp_dir_removal_on_all_paths (env : Env) (args : Args) (d : String)
    (h : Ev.mkdirTemp d ∈ (mainRun env args).trace) :
    Ev.removeDir d ∈ (mainRun env args).trace := by
  cases hpc : (args.inPath != "" && args.inPath != "-")
  · have hrun : mainRun env args = mainRead env args [] (emit (.readFrom .stdin) {}) := by
      simp [mainRun, hpc]
    rw [hrun] at h ⊢
    exact mkdir_implies_remove_mainRead env args [] _ d (by simp [emit]) h
  · cases ho : env.openOk
    · exfalso
      rw [mainRun, if_pos (by simp [hpc]), if_neg (by simp [ho])] at h
      simp [runDefers, emit] at h
    · have hrun : mainRun env args
          = mainRead env args [Deferred.closeInput]
              (emit (.readFrom (.file args.inPath))
                (emit (.openInput args.inPath) {})) := by
        simp [mainRun, hpc, ho]
      rw [hrun] at h ⊢
      exact mkdir_implies_remove_mainRead env args [Deferred.closeInput] _ d
        (by simp [emit]) h

/-- C7 witness: the theorem applied at a run whose conversion fails with
preview set (an early-abort exit path): the directory creation appears in
the trace, and so does its removal. -/
theorem temp_dir_removal_on_all_paths_witness :
    Ev.mkdirTemp "/tmp/rmd1"
        ∈ (mainRun { envAllOk with convOk := false } ⟨"-", true, false⟩).trace
      ∧ Ev.removeDir "/tmp/rmd1"
          ∈ (mainRun { envAllOk with convOk := false } ⟨"-", true, false⟩).trace :=
  ⟨by decide,
    temp_dir_removal_on_all_paths { envAllOk with convOk := false }
      ⟨"-", true, false⟩ "/tmp/rmd1" (by decide)⟩

/-- C6 counterexample: in a preview run whose viewer launch attempt
fails, the launch is attempted and the temporary directory is removed,
but no sleep occurs at all — the launch failure panics before the fixed
delay, so the claim that the process waits the delay whether the launch
succeeds or fails is false on the code. -/
theorem launch_failure_skips_delay_cex :
    Ev.launchViewer "/tmp/rmd1/out.html"
        ∈ (mainRun { envAllOk with launchOk := false } ⟨"-", true, false⟩).trace
      ∧ Ev.sleepSec 1
          ∉ (mainRun { envAllOk with launchOk := false } ⟨"-", true, false⟩).trace
      ∧ Ev.removeDir "/tmp/rmd1"
          ∈ (mainRun { envAllOk with launchOk := false } ⟨"-", true, false⟩).trace := by
  decide

/-- C6 amended: in a preview run that reaches the launcher, when the
launch attempt succeeds the process sleeps the fixed one-second delay
between the launch and the removal of the temporary directory; when the
launch attempt fails the run panics with the launch error and removal is
attempted without any sleep. -/
theorem launch_delay_only_on_success (env : Env) (b : Bool)
    (hr : env.readOk = true) (hmk : env.mkdirOk = true) (hcr : env.createOk = true)
    (hp : env.parseOk = true) (he : env.execOk = true) (hc : env.convOk = true)
    (hs : env.suffixOk = true) :
    (env.launchOk = true →
        occursInOrder3 (.launchViewer (env.tmpDir ++ "/out.html")) (.sleepSec 1)
          (.removeDir env.tmpDir) (mainRun env ⟨"-", true, b⟩).trace)
      ∧ (env.launchOk = false →
          Ev.sleepSec 1 ∉ (mainRun env ⟨"-", true, b⟩).trace
            ∧ (mainRun env ⟨"-", true, b⟩).outcome = .fatal .launch
            ∧ Ev.removeDir env.tmpDir ∈ (mainRun env ⟨"-", true, b⟩).trace) := by
  constructor
  · intro hl
    cases b <;> cases hrm : env.removeOk <;>
      simp [mainRun, mainRead, mainPreview, mainStyle, mainConvert, runDefers,
            runDeferred, emit, writeSinkSt, occursInOrder3,
            hr, hmk, hcr, hp, he, hc, hs, hl, hrm] <;>
      first
        | exact ⟨[.readFrom .stdin, .mkdirTemp env.tmpDir,
            .createFile (env.tmpDir ++ "/out.html"), .convert,
            .writeSink env.convWritten], [], [.closeFile],
            [.stderrLine (removeErrMsg env.tmpDir)], rfl⟩
        | exact ⟨[.readFrom .stdin, .mkdirTemp env.tmpDir,
            .createFile (env.tmpDir ++ "/out.html"), .convert,
            .writeSink env.convWritten], [], [.closeFile], [], rfl⟩
        | exact ⟨[.readFrom .stdin, .mkdirTemp env.tmpDir,
            .createFile (env.tmpDir ++ "/out.html"), .writeSink preambleHtml,
            .convert, .writeSink env.convWritten, .writeSink suffixHtml], [],
            [.closeFile], [.stderrLine (removeErrMsg env.tmpDir)], rfl⟩
        | exact ⟨[.readFrom .stdin, .mkdirTemp env.tmpDir,
            .createFile (env.tmpDir ++ "/out.html"), .writeSink preambleHtml,
            .convert, .writeSink env.convWritten, .writeSink suffixHtml], [],
            [.closeFile], [], rfl⟩
  · intro hl
    refine ⟨?_, ?_, ?_⟩ <;>
      cases b <;> cases hrm : env.removeOk <;>
        simp [mainRun, mainRead, mainPreview, mainStyle, mainConvert, runDefers,
              runDeferred, emit, writeSinkSt, St.outcome,
              hr, hmk, hcr, hp, he, hc, hs, hl, hrm]

/-- C6 amended witness: the success half applied at the all-successful
environment, and the failure half at the launch-failing one. -/
theorem launch_delay_only_on_success_witness :
    occursInOrder3 (.launchViewer ("/tmp/rmd1" ++ "/out.html")) (.sleepSec 1)
        (.removeDir "/tmp/rmd1") (mainRun envAllOk ⟨"-", true, false⟩).trace
      ∧ (mainRun { envAllOk with launchOk := false } ⟨"-", true, true⟩).outcome
          = .fatal .launch :=
  ⟨(launch_delay_only_on_success envAllOk false
      rfl rfl rfl rfl rfl rfl rfl).1 rfl,
    ((launch_delay_only_on_success { envAllOk with launchOk := false } true
      rfl rfl rfl rfl rfl rfl rfl).2 rfl).2.1⟩

/-- Deferred closures never raise the template-parse error: they can only
clear the panic, keep it, or raise the launch or suffix-write errors. -/
theorem panicking_tpl_runDeferred (env : Env) (d : Deferred) (st : St)
    (h : (runDeferred env d st).panicking = some .templateParse) :
    st.panicking = some .templateParse := by
  cases d <;> cases hp : st.panicking <;> cases hrm : env.removeOk <;>
    cases hl : env.launchOk <;> cases hs : env.suffixOk <;>
    simp_all [runDeferred, emit, writeSinkSt]

/-- Unwinding the deferred stack never raises the template-parse error. -/
theorem panicking_tpl_runDefers (env : Env) (ds : List Deferred) :
    ∀ st, (runDefers env ds st).panicking = some .templateParse →
      st.panicking = some .templateParse := by
  induction ds with
  | nil => intro st h; simpa [runDefers] using h
  | cons d ds ih =>
    intro st h
    exact panicking_tpl_runDeferred env d st (ih _ h)

/-- The conversion stage never raises the template-parse error. -/
theorem panicking_tpl_mainConvert (env : Env) (ds : List Deferred) (st : St)
    (h : (mainConvert env ds st).panicking = some .templateParse) :
    st.panicking = some .templateParse := by
  unfold mainConvert at h
  split at h <;>
    { have h' := panicking_tpl_runDefers env ds _ h
      simp [writeSinkSt, emit] at h'
      try simp_all }

/-- When the preamble template parses, the style stage never raises the
template-parse error. -/
theorem panicking_tpl_mainStyle (env : Env) (args : Args) (ds : List Deferred)
    (st : St) (hp : env.parseOk = true)
    (h : (mainStyle env args ds st).panicking = some .templateParse) :
    st.panicking = some .templateParse := by
  unfold mainStyle at h
  rw [if_pos hp] at h
  split at h
  · split at h
    · have h' := panicking_tpl_mainConvert env _ _ h
      simpa [writeSinkSt] using h'
    · have h' := panicking_tpl_runDefers env ds _ h
      simp at h'
  · exact panicking_tpl_mainConvert env ds st h

/-- When the preamble template parses, the sink-selection stage never
raises the template-parse error. -/
theorem panicking_tpl_mainPreview (env : Env) (args : Args) (ds : List Deferred)
    (st : St) (hp : env.parseOk = true)
    (h : (mainPreview env args ds st).panicking = some .templateParse) :
    st.panicking = some .templateParse := by
  unfold mainPreview at h
  split at h
  · split at h
    · split at h
      · have h' := panicking_tpl_mainStyle env args _ _ hp h
        simpa [emit] using h'
      · have h' := panicking_tpl_runDefers env _ _ h
        simp at h'
    · have h' := panicking_tpl_runDefers env ds _ h
      simp at h'
  · exact panicking_tpl_mainStyle env args ds st hp h

/-- When the preamble template parses, the read stage never raises the
template-parse error. -/
theorem panicking_tpl_mainRead (env : Env) (args : Args) (ds : List Deferred)
    (st : St) (hp : env.parseOk = true)
    (h : (mainRead env args ds st).panicking = some .templateParse) :
    st.panicking = some .templateParse := by
  unfold mainRead at h
  split at h
  · exact panicking_tpl_mainPreview env args ds st hp h
  · have h' := panicking_tpl_runDefers env ds _ h
    simp at h'

/-- When the preamble template parses, no run ends panicking with the
template-parse error. -/
theorem mainRun_no_templateParse (env : Env) (args : Args) (hp : env.parseOk = true) :
    (mainRun env args).panicking ≠ some .templateParse := by
  intro h
  unfold mainRun at h
  split at h
  · split at h
    · have h' := panicking_tpl_mainRead env args _ _ hp h
      simp [emit] at h'
    · have h' := panicking_tpl_runDefers env [] _ h
      simp [emit] at h'
  · have h' := panicking_tpl_mainRead env args _ _ hp h
    simp [emit] at h'
/-- C9: the style wrapper fails with the template error if construction
of the preamble template fails (shown here on runs reaching that branch
without a preview launcher installed); and since the template is a fixed
static literal whose parse always succeeds, the failure branch is
unreachable: no run with the modelled parse result ends with the
template error. -/
theorem template_error_branch_unreachable :
    (∀ env args, env.parseOk = staticTemplateParseOk →
        (mainRun env args).outcome ≠ .fatal .templateParse)
      ∧ (∀ env args, args.style = true → args.preview = false →
          env.readOk = true → env.parseOk = false →
          (args.inPath = "" ∨ args.inPath = "-") →
          (mainRun env args).outcome = .fatal .templateParse) := by
  constructor
  · intro env args hp hcontra
    have hpk : (mainRun env args).panicking = some .templateParse := by
      rcases hx : (mainRun env args).panicking with _ | e
      · simp [St.outcome, hx] at hcontra
      · simp [St.outcome, hx] at hcontra
        simp [hcontra]
    exact mainRun_no_templateParse env args hp hpk
  · intro env args hst hpv hr hp hpath
    have hpc : (args.inPath != "" && args.inPath != "-") = false := by
      rcases hpath with h | h <;> simp [h]
    simp [mainRun, mainRead, mainPreview, mainStyle, runDefers, St.outcome,
          emit, hpc, hr, hst, hpv, hp]

/-- C9 witness: with the modelled parse result no template failure occurs
at the all-successful styled run; and at a hypothetical environment whose
parse fails, a plain styled run stops with the template error. -/
theorem template_error_branch_unreachable_witness :
    (mainRun envAllOk ⟨"-", false, true⟩).outcome ≠ .fatal .templateParse
      ∧ (mainRun { envAllOk with parseOk := false } ⟨"-", false, true⟩).outcome
          = .fatal .templateParse :=
  ⟨template_error_branch_unreachable.1 envAllOk ⟨"-", false, true⟩ rfl,
    template_error_branch_unreachable.2 { envAllOk with parseOk := false }
      ⟨"-", false, true⟩ rfl rfl rfl rfl (Or.inr rfl)⟩

/-- C8: evaluation at the failing configuration.  The true half of the
claim holds: a cleanup failure is reported to standard error and leaves
the outcome unchanged (exit zero).  But cleanup is not the only
non-fatal error kind: with the style flag set, a Markdown conversion
failure is recovered by the deferred suffix writer (its `recover()` call
cancels the panic), so the run exits zero as well. -/
theorem cleanup_error_not_sole_nonfatal :
    ((mainRun { envAllOk with removeOk := false } ⟨"-", true, false⟩).outcome = .ok
        ∧ Ev.stderrLine (removeErrMsg "/tmp/rmd1")
            ∈ (mainRun { envAllOk with removeOk := false } ⟨"-", true, false⟩).trace)
      ∧ ((mainRun { envAllOk with convOk := false } ⟨"-", false, true⟩).outcome = .ok
          ∧ ({ envAllOk with convOk := false } : Env).convOk = false) := by
  decide

/-- C10: evaluation at the failing configuration.  When conversion fails
after the preamble was written in a styled run, the closing boilerplate
is indeed never written — the sink holds exactly the preamble and the
partial body — but the run does not abort: the suffix writer's
`recover()` cancels the render panic and the process exits zero. -/
theorem style_render_failure_skips_suffix_exits_zero :
    (mainRun { envAllOk with convOk := false, convWritten := "<p>par" }
        ⟨"-", false, true⟩).sink = [preambleHtml, "<p>par"]
      ∧ (mainRun { envAllOk with convOk := false, convWritten := "<p>par" }
          ⟨"-", false, true⟩).outcome = .ok := by
  decide
/-- Splitting a newline-free sequence yields the single line. -/
theorem splitOnNl_no_newline (l : List Char) (h : '\n' ∉ l) :
    splitOnNl l = [l] := by
  induction l with
  | nil => rfl
  | cons c cs ih =>
    have hc : ¬(c = '\n') := fun hc => h (by simp [hc])
    have hcs : '\n' ∉ cs := fun hx => h (List.mem_cons_of_mem _ hx)
    simp [splitOnNl, hc, ih hcs]

/-- Splitting at the first newline peels off the first line. -/
theorem splitOnNl_append (l1 r : List Char) (h : '\n' ∉ l1) :
    splitOnNl (l1 ++ '\n' :: r) = l1 :: splitOnNl r := by
  induction l1 with
  | nil => simp [splitOnNl]
  | cons c cs ih =>
    have hc : ¬(c = '\n') := fun hc => h (by simp [hc])
    have hcs : '\n' ∉ cs := fun hx => h (List.mem_cons_of_mem _ hx)
    simp [splitOnNl, hc, ih hcs]

/-- Dropping the trailing newline of a newline-terminated sequence. -/
theorem chompNl_concat (l : List Char) : chompNl (l ++ ['\n']) = l := by
  simp [chompNl, List.getLast?_concat, List.dropLast_concat]

/-- C3: a soft line break inside a paragraph renders as a hard line-break
element, not as a collapsed space: for every two-line paragraph the
converted output is the two lines (stripped of trailing hard-wrap
spaces) joined by the line-break element; in particular the input with
first line followed by two trailing spaces, a newline and a second line
produces a line-break element between the two. -/
theorem soft_break_renders_hard_break (l1 l2 : List Char)
    (h1 : '\n' ∉ l1) (h2 : '\n' ∉ l2) :
    mdConvert ⟨l1 ++ '\n' :: l2 ++ ['\n']⟩
        = "<p>" ++ String.mk (rstripSpaces l1) ++ "<br>" ++ "\n"
            ++ String.mk (rstripSpaces l2) ++ "</p>" ++ "\n"
      ∧ mdConvert ("a  \nb\n") = "<p>" ++ "a" ++ "<br>" ++ "\n" ++ "b" ++ "</p>" ++ "\n" := by
  constructor
  · have hc : chompNl (l1 ++ '\n' :: l2 ++ ['\n']) = l1 ++ '\n' :: l2 := by
      rw [show l1 ++ '\n' :: l2 ++ ['\n'] = (l1 ++ '\n' :: l2) ++ ['\n'] by simp]
      exact chompNl_concat _
    have hsplit : splitOnNl (chompNl (l1 ++ '\n' :: l2 ++ ['\n'])) = [l1, l2] := by
      rw [hc, splitOnNl_append l1 l2 h1, splitOnNl_no_newline l2 h2]
    have hdata : (⟨l1 ++ '\n' :: l2 ++ ['\n']⟩ : String).data
        = l1 ++ '\n' :: l2 ++ ['\n'] := rfl
    unfold mdConvert
    rw [hdata, hsplit]
    have hgoal : ('<' :: 'p' :: '>' ::
        (brJoin ([l1, l2].map rstripSpaces) ++ '<' :: '/' :: 'p' :: '>' :: '\n' :: []))
        = ("<p>" ++ String.mk (rstripSpaces l1) ++ "<br>" ++ "\n"
            ++ String.mk (rstripSpaces l2) ++ "</p>" ++ "\n").data := by
      simp [brJoin, String.data_append]
    rw [show (("<p>" ++ String.mk (rstripSpaces l1) ++ "<br>" ++ "\n"
        ++ String.mk (rstripSpaces l2) ++ "</p>" ++ "\n") : String)
        = ⟨("<p>" ++ String.mk (rstripSpaces l1) ++ "<br>" ++ "\n"
            ++ String.mk (rstripSpaces l2) ++ "</p>" ++ "\n").data⟩ from rfl]
    exact congrArg String.mk hgoal
  · decide

/-- C3 witness: the general statement applied at the scenario input, the
first line carrying two trailing hard-wrap spaces. -/
theorem soft_break_renders_hard_break_witness :
    '\n' ∉ ['a', ' ', ' '] ∧ '\n' ∉ ['b']
      ∧ mdConvert ⟨['a', ' ', ' '] ++ '\n' :: ['b'] ++ ['\n']⟩
          = "<p>" ++ String.mk (rstripSpaces ['a', ' ', ' ']) ++ "<br>" ++ "\n"
              ++ String.mk (rstripSpaces ['b']) ++ "</p>" ++ "\n" :=
  ⟨by decide, by decide,
    (soft_break_renders_hard_break ['a', ' ', ' '] ['b'] (by decide) (by decide)).1⟩
